import Mathlib

/-!
Verification development for the trading-app Conditional Auto-Order Engine.
The definitions below are shallow embeddings of the Go source:
`backend/internal/websocket/client.go` (registry, monitor worker, status
poller, validity parsing), `backend/internal/models/models.go` (AutoOrder
record with its cleanup latch) and the `openalgo` package (gateway and
predicate evaluation).  Machine integers are modelled as `Nat`/`Int` with
the source's explicit overflow checks; fallible code returns `Except`.
-/

namespace TradingApp

/-- Go `strings.ToLower`, modelled directly over the character list
(`Char.toLower` is the ASCII case map, which covers every string the
engine lower-cases).  Extensionally equal to Lean's `String.toLower` —
see `goToLower_eq` — but kernel-computable on literals. -/
def goToLower (s : String) : String := String.mk (s.data.map Char.toLower)

/-- Go `strings.ToUpper`, modelled like `goToLower`. -/
def goToUpper (s : String) : String := String.mk (s.data.map Char.toUpper)

/-! ### Go `time.ParseDuration`
`parseValidity` in client.go delegates to Go's `time.ParseDuration`.  The
following definitions port that function: `Nat` accumulators mirror the
`uint64` arithmetic together with the explicit overflow guards of the
source (`x > 1<<63/10`, `x > 1<<63`, `v > 1<<63/unit`, `d > 1<<63`). -/

def digitVal (c : Char) : Nat := c.toNat - 48

/-- Go `time.leadingInt`: consume leading decimal digits into the
accumulator `x`, failing on `uint64` overflow exactly where the source
checks. -/
def leadingInt : List Char → Nat → Except Unit (Nat × List Char)
  | [], x => .ok (x, [])
  | c :: rest, x =>
    if c.isDigit then
      if 2 ^ 63 / 10 < x then .error ()
      else
        let x2 := x * 10 + digitVal c
        if 2 ^ 63 < x2 then .error ()
        else leadingInt rest x2
    else .ok (x, c :: rest)

/-- Go `time.leadingFraction`: digits after the decimal point, with the
source's saturating overflow flag.  Returns (digits value, scale, rest). -/
def leadingFraction : List Char → Nat → Nat → Bool → Nat × Nat × List Char
  | [], x, scale, _ => (x, scale, [])
  | c :: rest, x, scale, overflow =>
    if c.isDigit then
      if overflow then leadingFraction rest x scale true
      else if (2 ^ 63 - 1) / 10 < x then leadingFraction rest x scale true
      else
        let y := x * 10 + digitVal c
        if 2 ^ 63 < y then leadingFraction rest x scale true
        else leadingFraction rest y (scale * 10) false
    else (x, scale, c :: rest)

/-- The unit token: characters up to the next digit or `'.'`. -/
def takeUnit : List Char → List Char × List Char
  | [] => ([], [])
  | c :: rest =>
    if c = '.' ∨ c.isDigit then ([], c :: rest)
    else
      let (u, r) := takeUnit rest
      (c :: u, r)

/-- Go `time.unitMap`: nanosecond multiplier of a unit token.  Note the
absence of a `d` (day) unit. -/
def unitMult : List Char → Option Nat
  | ['n', 's'] => some 1
  | ['u', 's'] => some 1000
  | ['µ', 's'] => some 1000
  | ['μ', 's'] => some 1000
  | ['m', 's'] => some 1000000
  | ['s'] => some 1000000000
  | ['m'] => some 60000000000
  | ['h'] => some 3600000000000
  | _ => none

/-- The group loop of `time.ParseDuration`.  The fuel is bounded by the
remaining string length; every group consumes at least one character, so
fuel `s.length + 1` is never exhausted.  The fractional contribution
`uint64(float64(f) * (float64(unit)/scale))` of the source is modelled by
the exact `f * unit / scale` (they agree whenever the float computation is
exact; no theorem below depends on a fractional input). -/
def durLoop : Nat → List Char → Nat → Except Unit Nat
  | 0, _, _ => .error ()
  | _ + 1, [], d => .ok d
  | fuel + 1, c :: s0, d =>
    if ¬(c = '.' ∨ c.isDigit) then .error ()
    else
      match leadingInt (c :: s0) 0 with
      | .error _ => .error ()
      | .ok (v, s1) =>
        let pre := decide (s1.length ≠ (c :: s0).length)
        let (f, scale, s3, post) :=
          if s1.head? = some '.' then
            let (f, scale, s3) := leadingFraction s1.tail 0 1 false
            (f, scale, s3, decide (s3.length ≠ s1.tail.length))
          else (0, 1, s1, false)
        if pre = false ∧ post = false then .error ()
        else
          let (u, s4) := takeUnit s3
          if u = [] then .error ()
          else
            match unitMult u with
            | none => .error ()
            | some unit =>
              if 2 ^ 63 / unit < v then .error ()
              else
                let v2 := v * unit
                let v3 := if 0 < f then v2 + f * unit / scale else v2
                if 0 < f ∧ 2 ^ 63 < v3 then .error ()
                else
                  let d2 := d + v3
                  if 2 ^ 63 < d2 then .error ()
                  else durLoop fuel s4 d2

/-- Go `time.ParseDuration`, returning the duration in nanoseconds. -/
def goParseDuration (str : String) : Except Unit Int :=
  let s0 := str.data
  let s1 := if s0.head? = some '-' ∨ s0.head? = some '+' then s0.tail else s0
  if s1 = ['0'] then .ok 0
  else if s1 = [] then .error ()
  else
    match durLoop (s1.length + 1) s1 0 with
    | .error _ => .error ()
    | .ok d =>
      if s0.head? = some '-' then .ok (-(d : Int))
      else if 2 ^ 63 - 1 < d then .error ()
      else .ok (d : Int)

/-! ### Civil calendar (for `time.Date(9999, ...)`) -/

/-- Days since 1970-01-01 of the Gregorian date (y, m, d), for y ≥ 1;
this is the day number Go's `time.Date` is built on. -/
def daysFromCivil (y m d : Nat) : Nat :=
  let y2 := if m ≤ 2 then y - 1 else y
  let era := y2 / 400
  let yoe := y2 - era * 400
  let doy := (153 * (if 2 < m then m - 3 else m + 9) + 2) / 5 + d - 1
  let doe := yoe * 365 + yoe / 4 - yoe / 100 + doy
  era * 146097 + doe - 719468

/-- The Gregorian year containing epoch day `z` (inverse direction of
`daysFromCivil`, for days on or after 1970-01-01). -/
def civilYearOfDay (z : Nat) : Nat :=
  let z2 := z + 719468
  let era := z2 / 146097
  let doe := z2 % 146097
  let yoe := (doe - doe / 1460 + doe / 36524 - doe / 146096) / 365
  let y := yoe + era * 400
  let doy := doe - (365 * yoe + yoe / 4 - yoe / 100)
  let mp := (5 * doy + 2) / 153
  let m := if mp < 10 then mp + 3 else mp - 9
  if m ≤ 2 then y + 1 else y

/-- `time.Date(9999, time.January, 1, 0, 0, 0, 0, time.UTC)` as
nanoseconds since the Unix epoch. -/
def foreverNs : Int := (daysFromCivil 9999 1 1 : Int) * 86400 * 1000000000

/-- Year of a nonnegative epoch-nanosecond instant. -/
def yearOfEpochNs (ns : Int) : Nat :=
  civilYearOfDay (ns.toNat / 1000000000 / 86400)

/-- The 30-day validity cap of `parseValidity` (`30*24*time.Hour`), in
nanoseconds. -/
def validityCapNs : Int := 2592000000000000

/-- `parseValidity` from client.go.  `nowNs` stands for `time.Now()`;
times are nanoseconds since the Unix epoch. -/
def parseValidity (nowNs : Int) (validityStr : String) : Except String Int :=
  if goToLower validityStr = "forever" then .ok foreverNs
  else
    match goParseDuration validityStr with
    | .error _ => .error "invalid duration format"
    | .ok d =>
      if validityCapNs < d then .error "maximum validity period is 30 days"
      else .ok (nowNs + d)

/-! ### Indicator series
`CalculateIndicatorValue` in the `openalgo` package calls `talib.Rsi`,
`talib.Ema`, ... from `github.com/markcheno/go-talib`, an external library
dependency (not part of this repository).  The series below model its
algorithms over `ℚ`.  Each output has the same length as its input, with
zeroes in the warm-up prefix, as the library allocates
`make([]float64, len(inReal))`.  No theorem below depends on the numeric
content of these series — only on the dispatch and error structure of
`CalculateIndicatorValue` — so float rounding is not modelled. -/

def windowSum (x : List ℚ) (start len : Nat) : ℚ :=
  ((x.drop start).take len).sum

/-- `talib.Sma`: mean of the p-window ending at each index ≥ p-1. -/
def talibSma (x : List ℚ) (p : Nat) : List ℚ :=
  (List.range x.length).map fun j =>
    if 1 ≤ p ∧ p ≤ j + 1 then windowSum x (j + 1 - p) p / (p : ℚ) else 0

/-- The EMA recurrence `prev + k*(x - prev)` from a seed. -/
def emaFrom (k : ℚ) : ℚ → List ℚ → List ℚ
  | _, [] => []
  | prev, x :: xs =>
    let cur := (x - prev) * k + prev
    cur :: emaFrom k cur xs

/-- `talib.Ema`, seeded with the SMA of the first p inputs. -/
def talibEma (x : List ℚ) (p : Nat) : List ℚ :=
  if p = 0 ∨ x.length < p then List.replicate x.length 0
  else
    let seed := (x.take p).sum / (p : ℚ)
    List.replicate (p - 1) 0 ++ seed :: emaFrom (2 / ((p : ℚ) + 1)) seed (x.drop p)

def sumGains (prev : ℚ) : List ℚ → ℚ
  | [] => 0
  | y :: ys => (if y - prev < 0 then 0 else y - prev) + sumGains y ys

def sumLosses (prev : ℚ) : List ℚ → ℚ
  | [] => 0
  | y :: ys => (if y - prev < 0 then prev - y else 0) + sumLosses y ys

/-- The Wilder smoothing steps of `talib.Rsi` after the seed window
(including the library's epsilon test around a zero gain+loss sum). -/
def rsiStep (p : Nat) : ℚ → ℚ → ℚ → List ℚ → List ℚ
  | _, _, _, [] => []
  | pv, pg, pl, x :: xs =>
    let d := x - pv
    let pl2 := (pl * ((p : ℚ) - 1) + (if d < 0 then -d else 0)) / (p : ℚ)
    let pg2 := (pg * ((p : ℚ) - 1) + (if d < 0 then 0 else d)) / (p : ℚ)
    let t := pg2 + pl2
    let out := if -(1 / 10 ^ 14 : ℚ) < t ∧ t < (1 / 10 ^ 14 : ℚ) then 0
               else 100 * (pg2 / t)
    out :: rsiStep p x pg2 pl2 xs

/-- `talib.Rsi` (zero output for p < 2, as in the library's guard). -/
def talibRsi (x : List ℚ) (p : Nat) : List ℚ :=
  if p < 2 ∨ x.length < p + 1 then List.replicate x.length 0
  else
    let x0 := x.headD 0
    let seedWin := (x.drop 1).take p
    let pg0 := sumGains x0 seedWin / (p : ℚ)
    let pl0 := sumLosses x0 seedWin / (p : ℚ)
    let t0 := pg0 + pl0
    let r0 := if -(1 / 10 ^ 14 : ℚ) < t0 ∧ t0 < (1 / 10 ^ 14 : ℚ) then 0
              else 100 * (pg0 / t0)
    let pv0 := (x.drop p).headD 0
    List.replicate p 0 ++ r0 :: rsiStep p pv0 pg0 pl0 (x.drop (p + 1))

/-- `talib.Roc`: 100*(x[j]/x[j-p] - 1) for j ≥ p (0 on a zero base). -/
def talibRoc (x : List ℚ) (p : Nat) : List ℚ :=
  (List.range x.length).map fun j =>
    if p ≤ j then
      let base := x.getD (j - p) 0
      if base ≠ 0 then ((x.getD j 0) / base - 1) * 100 else 0
    else 0

/-- One window of `talib.LinearRegSlope`: least-squares slope over the
p points ending at index j. -/
def lrsWindow (p : Nat) (x : List ℚ) (j : Nat) : ℚ :=
  let idx := List.range p
  let valAt := fun (i : Nat) => x.getD (j - i) 0
  let sumY := (idx.map valAt).sum
  let sumXY := (idx.map fun (i : Nat) => (i : ℚ) * valAt i).sum
  let pf : ℚ := (p : ℚ)
  let sumX := pf * (pf - 1) / 2
  let sumXSqr := pf * (pf - 1) * (2 * pf - 1) / 6
  let divisor := sumX * sumX - pf * sumXSqr
  (pf * sumXY - sumX * sumY) / divisor

def talibLinearRegSlope (x : List ℚ) (p : Nat) : List ℚ :=
  (List.range x.length).map fun j =>
    if 1 ≤ p ∧ p ≤ j + 1 then lrsWindow p x j else 0

/-- The `talib.Macd` histogram (the library's third return value, the one
`CalculateIndicatorValue` binds): masked fast/slow EMA difference minus
its signal EMA. -/
def talibMacdHist (x : List ℚ) (fast slow signal : Nat) : List ℚ :=
  let fastE := talibEma x fast
  let slowE := talibEma x slow
  let diff := List.zipWith (fun a b => a - b) fastE slowE
  let lookback := (slow - 1) + (signal - 1)
  let line := (List.range x.length).map fun j =>
    if lookback ≤ j + 1 then diff.getD j 0 else 0
  let sig := talibEma line signal
  (List.range x.length).map fun j =>
    if lookback ≤ j then line.getD j 0 - sig.getD j 0 else 0

/-! ### `CalculateIndicatorValue` (openalgo package) -/

/-- The `InsufficientData` message of `CalculateIndicatorValue`:
`"not enough history data to calculate %s(%d) (need at least %d, got %d)"`. -/
def insufficientDataMsg (name : String) (period got : Nat) : String :=
  "not enough history data to calculate " ++ name ++ "(" ++ toString period
    ++ ") (need at least " ++ toString (period + 1) ++ ", got "
    ++ toString got ++ ")"

/-- `CalculateIndicatorValue`: length precondition, then dispatch on the
upper-cased indicator name, returning the last element of the
corresponding series (`results[len(results)-1]`). -/
def CalculateIndicatorValue (indicatorName : String) (period : Nat)
    (closePrices : List ℚ) : Except String ℚ :=
  let requiredLength := period + 1
  if closePrices.length < requiredLength then
    .error (insufficientDataMsg indicatorName period closePrices.length)
  else
    match goToUpper indicatorName with
    | "RSI" => .ok ((talibRsi closePrices period).getLastD 0)
    | "EMA" => .ok ((talibEma closePrices period).getLastD 0)
    | "SMA" => .ok ((talibSma closePrices period).getLastD 0)
    | "MACD" => .ok ((talibMacdHist closePrices 12 26 9).getLastD 0)
    | "ROC" => .ok ((talibRoc closePrices period).getLastD 0)
    | "LRS" => .ok ((talibLinearRegSlope closePrices period).getLastD 0)
    | _ => .error ("unsupported indicator: " ++ indicatorName)

/-! ### History gateway and evaluation head (openalgo package) -/

/-- A broker candle (`OpenAlgoCandle`); prices over `ℚ`. -/
structure OpenAlgoCandle where
  timestamp : Int
  openPrice : ℚ
  high : ℚ
  low : ℚ
  close : ℚ
  volume : Int
  oi : Int
  deriving DecidableEq

/-- A decoded `/api/v1/history` envelope at HTTP 200 (the state of
`FetchOpenAlgoHistory` after `json.Unmarshal`); `data = none` models a
JSON `null`/absent candle array. -/
structure HistoryEnvelope where
  status : String
  data : Option (List OpenAlgoCandle)
  error : String
  deriving DecidableEq

/-- The envelope handling of `FetchOpenAlgoHistory` (openalgo package):
non-`success` status is an error carrying the remote message; a nil data
array is a *success* with an empty series. -/
def processHistoryResponse (r : HistoryEnvelope) : Except String (List OpenAlgoCandle) :=
  if r.status ≠ "success" then
    let errMsg := if r.error = "" then "api reported status: " ++ r.status else r.error
    .error ("history api error: " ++ errMsg)
  else
    match r.data with
    | none => .ok []
    | some cs => .ok cs

/-- The market-data head of `EvaluatePineCondition`: fetch-error wrapping
and the empty-series guard, then close extraction.  The remainder of the
pipeline (indicator substitution and govaluate evaluation) is the
parameter `rest`, which theorems quantify over: the paths proved below
return before `rest` is consulted. -/
def evalPineHead (fetched : Except String (List OpenAlgoCandle))
    (rest : List ℚ → Except String (Bool × List (String × ℚ))) :
    Except String (Bool × List (String × ℚ)) :=
  match fetched with
  | .error e => .error ("failed to fetch required market data: " ++ e)
  | .ok candles =>
    if candles.length = 0 then
      .error "no historical data available to evaluate condition"
    else rest (candles.map (fun c => c.close))

/-! ### Auto-order registry (client.go + models.go) -/

/-- The `AutoOrder` record (models.go); `cleanupDone` is the state of the
`CleanupOnce` (`sync.Once`) latch. -/
structure AutoOrderR where
  id : String
  userId : Int
  symbol : String
  exchange : String
  product : String
  quantity : Int
  action : String
  interval : String
  condition : String
  status : String
  createdAtSec : Int
  expiresAtSec : Int
  cleanupDone : Bool
  deriving DecidableEq

/-- The session registry guarded by `orderMux`: the `autoOrders` and
`cancellation` maps (association lists), the set of already-closed
channels (channels named by allocation tags), a ghost count of performed
`close` operations, and the next fresh channel tag. -/
structure RegState where
  autoOrders : List (String × AutoOrderR)
  cancellation : List (String × Nat)
  closedChans : List Nat
  closeCount : Nat
  nextChan : Nat
  deriving DecidableEq

def lookupA {α : Type} : List (String × α) → String → Option α
  | [], _ => none
  | (k, v) :: rest, key => if k = key then some v else lookupA rest key

/-- Go map assignment `m[k] = v` (silent overwrite). -/
def setA {α : Type} (k : String) (v : α) (l : List (String × α)) :
    List (String × α) :=
  (k, v) :: l.filter (fun p => p.1 ≠ k)

/-- Go map `delete(m, k)`. -/
def delA {α : Type} (k : String) (l : List (String × α)) : List (String × α) :=
  l.filter (fun p => p.1 ≠ k)

/-- Parameters of `StartAutoOrderMonitoring` besides the clock. -/
structure OrderParams where
  userId : Int
  symbol : String
  exchange : String
  product : String
  interval : String
  condition : String
  action : String
  quantity : Int
  deriving DecidableEq

/-- `StartAutoOrderMonitoring` (client.go): the id is
`fmt.Sprintf("SO-%d", time.Now().Unix()%100000)` (Go `%` truncates, hence
`Int.tmod`); the record and a fresh cancellation channel are stored by
plain map assignment, silently overwriting any entry under the same id. -/
def StartAutoOrderMonitoring (s : RegState) (nowSec : Int) (p : OrderParams)
    (expiresAtSec : Int) : String × RegState :=
  let orderID := "SO-" ++ toString (Int.tmod nowSec 100000)
  let ch := s.nextChan
  let order : AutoOrderR :=
    { id := orderID, userId := p.userId, symbol := p.symbol
      exchange := p.exchange, product := p.product, quantity := p.quantity
      action := p.action, interval := p.interval, condition := p.condition
      status := "running", createdAtSec := nowSec
      expiresAtSec := expiresAtSec, cleanupDone := false }
  (orderID,
    { s with
      autoOrders := setA orderID order s.autoOrders
      cancellation := setA orderID ch s.cancellation
      nextChan := ch + 1 })

/-- `removeAutoOrder` (client.go): under the mutex, an absent id is a
no-op; otherwise the record's `CleanupOnce` latch guards the body that
deletes both map entries and closes the cancellation channel, with the
`select`/`default` guard skipping a channel that is already closed.
(The latch of a record already deleted from the map is unobservable:
every call path reaches the record through the map lookup.) -/
def removeAutoOrder (s : RegState) (orderID : String) : RegState :=
  match lookupA s.autoOrders orderID with
  | none => s
  | some order =>
    if order.cleanupDone then s
    else
      let s1 := { s with autoOrders := delA orderID s.autoOrders }
      match lookupA s.cancellation orderID with
      | none => s1
      | some ch =>
        if ch ∈ s.closedChans then
          { s1 with cancellation := delA orderID s1.cancellation }
        else
          { s1 with
            cancellation := delA orderID s1.cancellation
            closedChans := ch :: s.closedChans
            closeCount := s.closeCount + 1 }

/-! ### Monitor worker loop (client.go `monitorAndPlaceOrder`) -/

deriving instance DecidableEq for Except

/-- Environment of one `ticker.C` iteration: the `time.Now().After`
expiry test, the `EvaluatePineCondition` outcome, and the
`PlaceOpenAlgoSmartOrder` outcome (consulted only on a met predicate). -/
structure TickInput where
  nowAfterExpiry : Bool
  eval : Except String (Bool × List (String × ℚ))
  place : Except String String
  deriving DecidableEq

inductive WEvent where
  | cancelFire
  | expiryFire
  | tick (inp : TickInput)
  deriving DecidableEq

inductive WEffect where
  | cancelledMsg
  | expiredMsg
  | placeOrderCall
  | placeFailedMsg (err : String)
  | placeFailedEmail
  | executedMsg (orderid : String)
  | executedEmail
  | spawnPoll (orderid : String)
  deriving DecidableEq

/-- Worker loop state: whether the loop is still running and whether the
cancellation channel has been closed. -/
structure WConfig where
  running : Bool
  cancelClosed : Bool
  deriving DecidableEq

/-- One iteration of the worker's `select` loop.  `none` means the branch
cannot fire (`case <-cancelChan` is ready only once the channel is
closed) or the worker has already returned.  Go's `select` chooses
uniformly among ready cases, so which enabled event occurs is the
environment's choice — the step function fixes only each branch's body:
cancel and expiry emit their message and return (the deferred registry
cleanup then runs, modelled by `removeAutoOrder`); a tick re-checks
expiry, treats *every* evaluation error with `log; continue`, and on a
met predicate places the order and reports the outcome. -/
def wstep (cfg : WConfig) (e : WEvent) : Option (WConfig × List WEffect) :=
  if cfg.running = false then none
  else
    match e with
    | .cancelFire =>
      if cfg.cancelClosed then some ({ cfg with running := false }, [.cancelledMsg])
      else none
    | .expiryFire => some ({ cfg with running := false }, [.expiredMsg])
    | .tick inp =>
      if inp.nowAfterExpiry then some ({ cfg with running := false }, [.expiredMsg])
      else
        match inp.eval with
        | .error _ => some (cfg, [])
        | .ok (met, _vals) =>
          if met then
            match inp.place with
            | .error e2 =>
              some (cfg, [.placeOrderCall, .placeFailedMsg e2, .placeFailedEmail])
            | .ok oid =>
              some (cfg, [.placeOrderCall, .executedMsg oid, .executedEmail,
                .spawnPoll oid])
          else some (cfg, [])

inductive SysEvent where
  | closeCancel
  | w (e : WEvent)
  deriving DecidableEq

/-- A worker step interleaved with the registry's (at most one) close of
the cancellation channel. -/
def sysStep (cfg : WConfig) (e : SysEvent) : Option (WConfig × List WEffect) :=
  match e with
  | .closeCancel =>
    if cfg.cancelClosed then none
    else some ({ cfg with cancelClosed := true }, [])
  | .w we => wstep cfg we

/-- Run an event trace, recording each step's effects. -/
def runTrace (cfg : WConfig) :
    List SysEvent → Option (WConfig × List (SysEvent × List WEffect))
  | [] => some (cfg, [])
  | e :: es =>
    match sysStep cfg e with
    | none => none
    | some (cfg2, effs) =>
      match runTrace cfg2 es with
      | none => none
      | some (cfg3, log) => some (cfg3, (e, effs) :: log)

def entryHasPlace (p : SysEvent × List WEffect) : Bool :=
  p.2.any (fun eff => eff == WEffect.placeOrderCall)

/-- Is an order placed strictly after the first `marker` event of the
log? -/
def placeAfter (marker : SysEvent → Bool) :
    List (SysEvent × List WEffect) → Bool
  | [] => false
  | p :: rest => if marker p.1 then rest.any entryHasPlace
                 else placeAfter marker rest

def isCloseEvent : SysEvent → Bool
  | .closeCancel => true
  | _ => false

def isCancelFireEvent : SysEvent → Bool
  | .w .cancelFire => true
  | _ => false

/-! ### Panic recovery path (client.go `monitorAndPlaceOrder` defers) -/

inductive CrashEffect where
  | cleanupRun
  | crashErrMsg
  | crashEmail
  | restartMsg
  | expiredNoRestartMsg
  | spawnWorker
  deriving DecidableEq

/-- The panic path of a worker that panics inside its loop.  Go runs
deferred functions in LIFO order: the cleanup defer (registered at line
596, after the timers) runs *before* the recovery defer (registered at
line 551), so `removeAutoOrder` has already deleted the record and closed
and deleted the cancellation channel by the time the recovery handler
emits its messages and decides on a restart. -/
def panicRecovery (s : RegState) (orderID : String) (notExpired : Bool) :
    RegState × List CrashEffect :=
  let s1 := removeAutoOrder s orderID
  if notExpired then
    (s1, [.cleanupRun, .crashErrMsg, .crashEmail, .restartMsg, .spawnWorker])
  else
    (removeAutoOrder s1 orderID,
      [.cleanupRun, .crashErrMsg, .crashEmail, .expiredNoRestartMsg, .cleanupRun])

inductive StartupResult where
  | noChannelStop
  | monitoring
  deriving DecidableEq

/-- Startup of `monitorAndPlaceOrder` (lines 569-576): a worker that
finds no cancellation channel for its id logs
`"Could not find cancellation channel ... Stopping."` and returns before
its first tick. -/
def workerStartup (s : RegState) (orderID : String) : StartupResult :=
  match lookupA s.cancellation orderID with
  | none => .noChannelStop
  | some _ => .monitoring

/-! ### Order-status poller (client.go `pollOrderStatus`) -/

def pollMaxRetries : Nat := 5
def pollRetryIntervalSec : Nat := 15

/-- Environment of one poll attempt: the registry lookup at the start of
the iteration (after the sleep) and the `FetchOrderStatus` outcome, the
latter carrying the broker `order_status` string. -/
structure PollAttemptEnv where
  existsInRegistry : Bool
  fetch : Except String String
  deriving DecidableEq

inductive PEffect where
  | fetchCall
  | failureMsg (st : String)
  | failureEmail (st : String)
  | unresolvedMsg
  | unresolvedEmail
  deriving DecidableEq

inductive PollOutcome where
  | vanished
  | complete
  | failed (st : String)
  | exhausted
  deriving DecidableEq

/-- The retry loop of `pollOrderStatus`: per attempt, stop silently when
the parent monitor is gone; a fetch error consumes the attempt; status
(lower-cased) `complete` returns silently; `rejected`/`cancelled` emit
one failure message and one e-mail and return; anything else continues.
On exhaustion, the final registry check guards the `unresolved` message
and e-mail. -/
def pollGo (finalExists : Bool) : List PollAttemptEnv → PollOutcome × List PEffect
  | [] =>
    if finalExists then (.exhausted, [.unresolvedMsg, .unresolvedEmail])
    else (.exhausted, [])
  | a :: rest =>
    if a.existsInRegistry then
      match a.fetch with
      | .error _ =>
        let (o, effs) := pollGo finalExists rest
        (o, .fetchCall :: effs)
      | .ok st =>
        match goToLower st with
        | "complete" => (.complete, [.fetchCall])
        | "rejected" => (.failed st, [.fetchCall, .failureMsg st, .failureEmail st])
        | "cancelled" => (.failed st, [.fetchCall, .failureMsg st, .failureEmail st])
        | _ =>
          let (o, effs) := pollGo finalExists rest
          (o, .fetchCall :: effs)
    else (.vanished, [])

/-- `pollOrderStatus`: at most `maxRetries = 5` attempts, 15 s apart. -/
def pollOrderStatus (attempts : List PollAttemptEnv) (finalExists : Bool) :
    PollOutcome × List PEffect :=
  pollGo finalExists (attempts.take pollMaxRetries)

/-- User-facing message effects of the poller. -/
def isUserMsg : PEffect → Bool
  | .failureMsg _ => true
  | .unresolvedMsg => true
  | _ => false

/-- E-mail effects of the poller. -/
def isEmail : PEffect → Bool
  | .failureEmail _ => true
  | .unresolvedEmail => true
  | _ => false

/-- `FetchOrderStatus` calls of the poller. -/
def isFetch : PEffect → Bool
  | .fetchCall => true
  | _ => false

def countP (q : PEffect → Bool) (effs : List PEffect) : Nat :=
  (effs.filter q).length

/-! ### Shared sample data for concrete instantiations -/

/-- Sample `/buy_smart_auto` parameters. -/
def sampleParams : OrderParams :=
  { userId := 7, symbol := "TCS", exchange := "NSE", product := "NRML"
    interval := "5m", condition := "RSI14 < 30", action := "BUY"
    quantity := 10 }

/-- The registry state after registering one monitor at epoch second 42
(id `SO-42`). -/
def sampleReg : RegState :=
  (StartAutoOrderMonitoring ⟨[], [], [], 0, 0⟩ 42 sampleParams 1000).2

/-- A second, different set of `/sell_smart_auto` parameters. -/
def sampleParams2 : OrderParams :=
  { userId := 7, symbol := "INFY", exchange := "NSE", product := "MIS"
    interval := "15m", condition := "EMA50 > 100", action := "SELL"
    quantity := 3 }

/-- The registry after a second registration in the same epoch second. -/
def sampleReg2 : RegState :=
  (StartAutoOrderMonitoring sampleReg 42 sampleParams2 2000).2

/-! ### Lemmas: duration parsing of plain `<digits><unit>` strings -/

/-- Value of a digit string continued from accumulator `x` (the loop
invariant of `leadingInt`). -/
def accVal (x : Nat) (ds : List Char) : Nat :=
  ds.foldl (fun a c => a * 10 + digitVal c) x

/-- Numeric value of a decimal digit string. -/
def digitsVal (ds : List Char) : Nat := accVal 0 ds

lemma accVal_cons (x : Nat) (c : Char) (ds : List Char) :
    accVal x (c :: ds) = accVal (x * 10 + digitVal c) ds := rfl

lemma le_accVal (x : Nat) (ds : List Char) : x ≤ accVal x ds := by
  induction ds generalizing x with
  | nil => simp [accVal]
  | cons c ds ih =>
    rw [accVal_cons]
    exact le_trans (by omega) (ih (x * 10 + digitVal c))

lemma leadingInt_digits (ds : List Char) (rest : List Char) (x : Nat)
    (hds : ∀ c ∈ ds, c.isDigit = true)
    (hrest : ∀ c, rest.head? = some c → c.isDigit = false)
    (hb : accVal x ds ≤ 2 ^ 63) :
    leadingInt (ds ++ rest) x = .ok (accVal x ds, rest) := by
  induction ds generalizing x with
  | nil =>
    cases rest with
    | nil => simp [leadingInt, accVal]
    | cons c r =>
      have hc : c.isDigit = false := hrest c rfl
      simp [leadingInt, hc, accVal]
  | cons c ds ih =>
    have hc : c.isDigit = true := hds c (by simp)
    have hb2 : accVal (x * 10 + digitVal c) ds ≤ 2 ^ 63 := by
      rwa [accVal_cons] at hb
    have hx2 : x * 10 + digitVal c ≤ 2 ^ 63 := le_trans (le_accVal _ _) hb2
    have hxsmall : ¬ (2 ^ 63 / 10 < x) := by
      intro hgt
      have h10 : (2 : Nat) ^ 63 < x * 10 :=
        (Nat.div_lt_iff_lt_mul (by norm_num : (0 : Nat) < 10)).mp hgt
      omega
    have hnot : ¬ (2 ^ 63 < x * 10 + digitVal c) := by omega
    rw [List.cons_append, leadingInt]
    simp only [hc, if_true, if_neg hxsmall, if_neg hnot]
    rw [ih _ (fun d hd => hds d (by simp [hd])) hb2, accVal_cons]

lemma leadingInt_digits_overflow (ds : List Char) (rest : List Char) (x : Nat)
    (hds : ∀ c ∈ ds, c.isDigit = true)
    (hx : x ≤ 2 ^ 63) (hb : 2 ^ 63 < accVal x ds) :
    leadingInt (ds ++ rest) x = .error () := by
  induction ds generalizing x with
  | nil => simp [accVal] at hb; omega
  | cons c ds ih =>
    have hc : c.isDigit = true := hds c (by simp)
    rw [List.cons_append, leadingInt]
    simp only [hc, if_true]
    by_cases hsm : 2 ^ 63 / 10 < x
    · simp only [if_pos hsm]
    · simp only [if_neg hsm]
      by_cases hov : 2 ^ 63 < x * 10 + digitVal c
      · simp only [if_pos hov]
      · simp only [if_neg hov]
        exact ih _ (fun d hd => hds d (by simp [hd])) (by omega)
          (by rwa [accVal_cons] at hb)

lemma durLoop_nil (n d : Nat) : durLoop (n + 1) [] d = .ok d := rfl

lemma durLoop_digits (ds : List Char) (u : Char)
    (hds : ∀ c ∈ ds, c.isDigit = true) (hne : ds ≠ [])
    (hud : u.isDigit = false) (hudot : u ≠ '.')
    (hb : digitsVal ds ≤ 2 ^ 63) :
    durLoop ((ds ++ [u]).length + 1) (ds ++ [u]) 0
      = match unitMult [u] with
        | none => .error ()
        | some unit =>
          if 2 ^ 63 / unit < digitsVal ds then .error ()
          else if 2 ^ 63 < digitsVal ds * unit then .error ()
          else .ok (digitsVal ds * unit) := by
  obtain ⟨c, ds', rfl⟩ : ∃ c ds', ds = c :: ds' := by
    cases ds with
    | nil => exact absurd rfl hne
    | cons c t => exact ⟨c, t, rfl⟩
  have hc : c.isDigit = true := hds c (by simp)
  have hlen : ((c :: ds') ++ [u]).length + 1 = (ds'.length + 2) + 1 := by simp
  rw [hlen, List.cons_append, durLoop]
  have hguard : ¬ ¬ (c = '.' ∨ c.isDigit = true) := by simp [hc]
  rw [if_neg hguard]
  rw [show c :: (ds' ++ [u]) = (c :: ds') ++ [u] from rfl]
  rw [leadingInt_digits (c :: ds') [u] 0 hds
    (fun d hd => by simp at hd; rw [← hd]; exact hud) hb]
  simp only
  have hpre : decide (([u] : List Char).length ≠ ((c :: ds') ++ [u]).length) = true := by
    simp
  have hdot : ¬ (([u] : List Char).head? = some '.') := by simp [hudot]
  rw [if_neg hdot]
  simp only [hpre]
  rw [if_neg (by simp)]
  have htu : takeUnit [u] = ([u], []) := by
    rw [takeUnit]
    simp [hudot, hud, takeUnit]
  rw [htu]
  simp only
  rw [if_neg (by simp : ¬ ([u] : List Char) = [])]
  cases hunit : unitMult [u] with
  | none => simp
  | some unit =>
    simp only [digitsVal] at hb ⊢
    simp only [lt_irrefl, if_false, false_and, Nat.zero_add]
    by_cases hdiv : 2 ^ 63 / unit < accVal 0 (c :: ds')
    · rw [if_pos hdiv, if_pos hdiv]
    · rw [if_neg hdiv, if_neg hdiv]
      by_cases hov : 2 ^ 63 < accVal 0 (c :: ds') * unit
      · rw [if_pos hov, if_pos hov]
      · rw [if_neg hov, if_neg hov, durLoop_nil]

lemma durLoop_digits_overflow (ds : List Char) (u : Char)
    (hds : ∀ c ∈ ds, c.isDigit = true) (hne : ds ≠ [])
    (hb : 2 ^ 63 < digitsVal ds) :
    durLoop ((ds ++ [u]).length + 1) (ds ++ [u]) 0 = .error () := by
  obtain ⟨c, ds', rfl⟩ : ∃ c ds', ds = c :: ds' := by
    cases ds with
    | nil => exact absurd rfl hne
    | cons c t => exact ⟨c, t, rfl⟩
  have hc : c.isDigit = true := hds c (by simp)
  have hlen : ((c :: ds') ++ [u]).length + 1 = (ds'.length + 2) + 1 := by simp
  rw [hlen, List.cons_append, durLoop]
  rw [if_neg (by simp [hc] : ¬ ¬ (c = '.' ∨ c.isDigit = true))]
  rw [show c :: (ds' ++ [u]) = (c :: ds') ++ [u] from rfl]
  rw [leadingInt_digits_overflow (c :: ds') [u] 0 hds (by norm_num) hb]

lemma isDigit_ne_dash {c : Char} (hc : c.isDigit = true) : c ≠ '-' := by
  intro h
  subst h
  exact absurd hc (by decide)

lemma isDigit_ne_plus {c : Char} (hc : c.isDigit = true) : c ≠ '+' := by
  intro h
  subst h
  exact absurd hc (by decide)

lemma goParseDuration_digits (ds : List Char) (u : Char)
    (hds : ∀ c ∈ ds, c.isDigit = true) (hne : ds ≠ [])
    (hud : u.isDigit = false) (hudot : u ≠ '.') :
    goParseDuration (String.mk (ds ++ [u]))
      = if 2 ^ 63 < digitsVal ds then .error ()
        else
          match unitMult [u] with
          | none => .error ()
          | some unit =>
            if 2 ^ 63 / unit < digitsVal ds then .error ()
            else if 2 ^ 63 < digitsVal ds * unit then .error ()
            else if 2 ^ 63 - 1 < digitsVal ds * unit then .error ()
            else .ok ((digitsVal ds * unit : Nat) : Int) := by
  obtain ⟨c, ds', rfl⟩ : ∃ c ds', ds = c :: ds' := by
    cases ds with
    | nil => exact absurd rfl hne
    | cons c t => exact ⟨c, t, rfl⟩
  have hc : c.isDigit = true := hds c (by simp)
  have hdata : (String.mk ((c :: ds') ++ [u])).data = (c :: ds') ++ [u] := rfl
  have hsign : ¬ ((some c = some '-') ∨ (some c = some '+')) := by
    intro hor
    rcases hor with h | h
    · exact isDigit_ne_dash hc (Option.some.inj h)
    · exact isDigit_ne_plus hc (Option.some.inj h)
  have hneg : ¬ (some c = some '-') := fun h => isDigit_ne_dash hc (Option.some.inj h)
  rw [goParseDuration]
  simp only [hdata, List.cons_append, List.head?_cons]
  simp only [if_neg hsign, if_neg hneg]
  rw [if_neg (by simp : ¬ (c :: (ds' ++ [u]) = ['0']))]
  rw [if_neg (by simp : ¬ (c :: (ds' ++ [u]) = []))]
  by_cases hov : 2 ^ 63 < digitsVal (c :: ds')
  · rw [show (c :: (ds' ++ [u])) = (c :: ds') ++ [u] from rfl,
      durLoop_digits_overflow (c :: ds') u hds (by simp) hov, if_pos hov]
  · rw [show (c :: (ds' ++ [u])) = (c :: ds') ++ [u] from rfl,
      durLoop_digits (c :: ds') u hds (by simp) hud hudot (by omega), if_neg hov]
    cases hunit : unitMult [u] with
    | none => simp
    | some unit =>
      simp only
      by_cases hdiv : 2 ^ 63 / unit < digitsVal (c :: ds')
      · rw [if_pos hdiv, if_pos hdiv]
      · rw [if_neg hdiv, if_neg hdiv]
        by_cases hmul : 2 ^ 63 < digitsVal (c :: ds') * unit
        · rw [if_pos hmul, if_pos hmul]
        · rw [if_neg hmul, if_neg hmul]

lemma goToLower_eq (s : String) : goToLower s = s.toLower := by
  cases s with
  | mk data => simp [goToLower, String.toLower, String.map_eq]

lemma goToUpper_eq (s : String) : goToUpper s = s.toUpper := by
  cases s with
  | mk data => simp [goToUpper, String.toUpper, String.map_eq]

lemma goToLower_append_ne_forever (l : List Char) (u : Char)
    (hu : u.toLower ≠ 'r') :
    goToLower (String.mk (l ++ [u])) ≠ "forever" := by
  intro h
  have hdata : (l ++ [u]).map Char.toLower = "forever".data := congrArg String.data h
  rw [List.map_append] at hdata
  have hlast := congrArg List.getLast? hdata
  rw [show ("forever".data : List Char) = ['f', 'o', 'r', 'e', 'v', 'e', 'r'] from rfl]
    at hlast
  simp only [List.map_cons, List.map_nil] at hlast
  rw [List.getLast?_concat] at hlast
  have : u.toLower = 'r' := by
    have h2 : (['f', 'o', 'r', 'e', 'v', 'e', 'r'] : List Char).getLast? = some 'r' := rfl
    rw [h2] at hlast
    exact Option.some.inj hlast
  exact hu this

lemma goParseDuration_digits_unit (ds : List Char) (u : Char) (mult : Nat)
    (hds : ∀ c ∈ ds, c.isDigit = true) (hne : ds ≠ [])
    (hud : u.isDigit = false) (hudot : u ≠ '.')
    (hunit : unitMult [u] = some mult) (hmpos : 0 < mult)
    (hbig : digitsVal ds * mult ≤ 2592000000000000) :
    goParseDuration (String.mk (ds ++ [u]))
      = .ok ((digitsVal ds * mult : Nat) : Int) := by
  have hle : digitsVal ds ≤ digitsVal ds * mult :=
    le_mul_of_one_le_right (Nat.zero_le _) hmpos
  rw [goParseDuration_digits ds u hds hne hud hudot]
  rw [if_neg (not_lt.mpr (le_trans (le_trans hle hbig) (by norm_num)))]
  simp only [hunit]
  rw [if_neg (not_lt.mpr ((Nat.le_div_iff_mul_le hmpos).mpr
    (le_trans hbig (by norm_num))))]
  rw [if_neg (not_lt.mpr (le_trans hbig (by norm_num)))]
  rw [if_neg (not_lt.mpr (le_trans hbig (by norm_num)))]

lemma goParseDuration_digits_d (ds : List Char)
    (hds : ∀ c ∈ ds, c.isDigit = true) (hne : ds ≠ []) :
    goParseDuration (String.mk (ds ++ ['d'])) = .error () := by
  rw [goParseDuration_digits ds 'd' hds hne (by decide) (by decide)]
  by_cases hov : 2 ^ 63 < digitsVal ds
  · rw [if_pos hov]
  · rw [if_neg hov]
    simp only [show unitMult ['d'] = none from rfl]

lemma parseValidity_ok (now : Int) (s : String) (d : Int)
    (h : goToLower s ≠ "forever") (hd : goParseDuration s = .ok d) :
    parseValidity now s
      = if validityCapNs < d then .error "maximum validity period is 30 days"
        else .ok (now + d) := by
  simp only [parseValidity, if_neg h, hd]

lemma parseValidity_err (now : Int) (s : String)
    (h : goToLower s ≠ "forever") (hd : goParseDuration s = .error ()) :
    parseValidity now s = .error "invalid duration format" := by
  simp only [parseValidity, if_neg h, hd]

/-! ## Claim C2 -/

/-- C2 counterexample: the claim says `parseValidity` accepts every
duration of the form `<n>{s|m|h|d}` whose value is at most 30 days and
errs on any string outside that grammar; but the code delegates to Go's
`time.ParseDuration`, which has no `d` unit, so `1d` (one day, well under
the cap) is rejected — while `100ms`, not of the claimed grammar, is
accepted. -/
theorem C2_counterexample :
    parseValidity 0 "1d" = .error "invalid duration format"
    ∧ parseValidity 0 "1d" ≠ .ok 86400000000000
    ∧ parseValidity 0 "100ms" = .ok 100000000 := by
  refine ⟨?_, ?_, ?_⟩
  · exact parseValidity_err 0 (String.mk (['1'] ++ ['d']))
      (goToLower_append_ne_forever ['1'] 'd' (by decide))
      (goParseDuration_digits_d ['1'] (by decide) (by decide))
  · have h1 : parseValidity 0 "1d" = .error "invalid duration format" :=
      parseValidity_err 0 (String.mk (['1'] ++ ['d']))
        (goToLower_append_ne_forever ['1'] 'd' (by decide))
        (goParseDuration_digits_d ['1'] (by decide) (by decide))
    rw [h1]
    intro h
    exact Except.noConfusion h
  · have h2 := parseValidity_ok 0 (String.mk (['1', '0', '0', 'm'] ++ ['s']))
      100000000
      (goToLower_append_ne_forever ['1', '0', '0', 'm'] 's' (by decide)) rfl
    rw [if_neg (by decide)] at h2
    simpa using h2

/-- C2 (amended): `parseValidity` maps `forever` (case-insensitively, via
`strings.ToLower`) to 9999-01-01 UTC; every other string goes through Go
`time.ParseDuration`, whose unit set is ns/us/µs/ms/s/m/h with **no** `d`
unit.  Hence: every `<digits>{s|m|h}` string whose value is at most
30 days parses to `now + duration`; every `<digits>d` string is rejected
with `invalid duration format`; a parsed duration above 30 days is
rejected with `maximum validity period is 30 days`; and any string
`time.ParseDuration` rejects yields `invalid duration format`. -/
theorem C2_theorem :
    (∀ (now : Int) (s : String), goToLower s = "forever" →
      parseValidity now s = .ok foreverNs)
    ∧ yearOfEpochNs foreverNs = 9999
    ∧ (∀ (now : Int) (ds : List Char) (u : Char) (mult : Nat),
        (∀ c ∈ ds, c.isDigit = true) → ds ≠ [] →
        ((u, mult) = ('s', 1000000000) ∨ (u, mult) = ('m', 60000000000)
          ∨ (u, mult) = ('h', 3600000000000)) →
        digitsVal ds * mult ≤ 2592000000000000 →
        parseValidity now (String.mk (ds ++ [u]))
          = .ok (now + ((digitsVal ds * mult : Nat) : Int)))
    ∧ (∀ (now : Int) (ds : List Char),
        (∀ c ∈ ds, c.isDigit = true) → ds ≠ [] →
        parseValidity now (String.mk (ds ++ ['d']))
          = .error "invalid duration format")
    ∧ (∀ (now : Int) (s : String) (d : Int),
        goToLower s ≠ "forever" → goParseDuration s = .ok d →
        validityCapNs < d →
        parseValidity now s = .error "maximum validity period is 30 days")
    ∧ (∀ (now : Int) (s : String),
        goToLower s ≠ "forever" → goParseDuration s = .error () →
        parseValidity now s = .error "invalid duration format") := by
  refine ⟨?_, ?_, ?_, ?_, ?_, ?_⟩
  · intro now s h
    simp only [parseValidity, if_pos h]
  · rfl
  · intro now ds u mult hds hne hu hcap
    have main : goParseDuration (String.mk (ds ++ [u]))
        = .ok ((digitsVal ds * mult : Nat) : Int) := by
      rcases hu with h | h | h <;>
      · injection h with h1 h2
        subst h1
        subst h2
        exact goParseDuration_digits_unit ds _ _ hds hne (by decide) (by decide)
          rfl (by norm_num) hcap
    have hnf : goToLower (String.mk (ds ++ [u])) ≠ "forever" := by
      rcases hu with h | h | h <;>
      · injection h with h1 h2
        subst h1
        exact goToLower_append_ne_forever ds _ (by decide)
    rw [parseValidity_ok now _ _ hnf main,
      if_neg (by simp only [validityCapNs]; exact not_lt.mpr (by exact_mod_cast hcap))]
  · intro now ds hds hne
    exact parseValidity_err now _ (goToLower_append_ne_forever ds 'd' (by decide))
      (goParseDuration_digits_d ds hds hne)
  · intro now s d hnf hok hcap
    rw [parseValidity_ok now s d hnf hok, if_pos hcap]
  · intro now s hnf herr
    exact parseValidity_err now s hnf herr

/-- C2 witness: the amended theorem applied at `FOREVER`, `15s`, `2d`,
`721h` (above the 30-day cap) and the unparseable `uh`. -/
theorem C2_theorem_witness :
    (goToLower "FOREVER" = "forever" ∧ parseValidity 5 "FOREVER" = .ok foreverNs)
    ∧ ((∀ c ∈ (['1', '5'] : List Char), c.isDigit = true)
        ∧ (['1', '5'] : List Char) ≠ []
        ∧ digitsVal ['1', '5'] * 1000000000 ≤ 2592000000000000
        ∧ parseValidity 0 (String.mk (['1', '5'] ++ ['s']))
            = .ok (0 + ((digitsVal ['1', '5'] * 1000000000 : Nat) : Int)))
    ∧ parseValidity 0 (String.mk (['2'] ++ ['d'])) = .error "invalid duration format"
    ∧ (goToLower "721h" ≠ "forever" ∧ goParseDuration "721h" = .ok 2595600000000000
        ∧ validityCapNs < 2595600000000000
        ∧ parseValidity 0 "721h" = .error "maximum validity period is 30 days")
    ∧ (goToLower "uh" ≠ "forever" ∧ goParseDuration "uh" = .error ()
        ∧ parseValidity 0 "uh" = .error "invalid duration format") := by
  refine ⟨⟨rfl, C2_theorem.1 5 "FOREVER" rfl⟩,
    ⟨by decide, by decide, by decide,
      C2_theorem.2.2.1 0 ['1', '5'] 's' 1000000000 (by decide) (by decide)
        (Or.inl rfl) (by decide)⟩,
    C2_theorem.2.2.2.1 0 ['2'] (by decide) (by decide),
    ⟨by decide, rfl, by decide,
      C2_theorem.2.2.2.2.1 0 "721h" 2595600000000000 (by decide) rfl (by decide)⟩,
    by decide, rfl,
    C2_theorem.2.2.2.2.2 0 "uh" (by decide) rfl⟩

/-! ## Claims C7 and C9 -/

/-- C7: a close series shorter than period+1 makes
`CalculateIndicatorValue` return the `InsufficientData` error naming the
indicator, the required length (period+1) and the received length — never
a value; with length at least period+1 the supported indicators do not
take this error branch (they return a value). -/
theorem C7_theorem :
    (∀ (name : String) (period : Nat) (closes : List ℚ),
      closes.length < period + 1 →
      CalculateIndicatorValue name period closes
        = .error (insufficientDataMsg name period closes.length))
    ∧ (∀ (name : String) (period : Nat) (closes : List ℚ),
      goToUpper name ∈ (["RSI", "EMA", "SMA", "MACD", "ROC", "LRS"] : List String) →
      period + 1 ≤ closes.length →
      ∃ v, CalculateIndicatorValue name period closes = .ok v) := by
  constructor
  · intro name period closes h
    simp only [CalculateIndicatorValue, if_pos h]
  · intro name period closes hmem hlen
    have hnl : ¬ (closes.length < period + 1) := not_lt.mpr hlen
    simp only [List.mem_cons, List.not_mem_nil, or_false] at hmem
    rcases hmem with h | h | h | h | h | h <;>
    · simp only [CalculateIndicatorValue, if_neg hnl]
      rw [h]
      exact ⟨_, rfl⟩

/-- C7 witness: RSI(14) on a 3-element and on a 15-element close series. -/
theorem C7_theorem_witness :
    ((List.replicate 3 (1 : ℚ)).length < 14 + 1
      ∧ CalculateIndicatorValue "RSI" 14 (List.replicate 3 (1 : ℚ))
          = .error (insufficientDataMsg "RSI" 14 (List.replicate 3 (1 : ℚ)).length))
    ∧ (goToUpper "RSI" ∈ (["RSI", "EMA", "SMA", "MACD", "ROC", "LRS"] : List String)
      ∧ 14 + 1 ≤ (List.replicate 15 (1 : ℚ)).length
      ∧ ∃ v, CalculateIndicatorValue "RSI" 14 (List.replicate 15 (1 : ℚ)) = .ok v) :=
  ⟨⟨by decide, C7_theorem.1 "RSI" 14 _ (by decide)⟩,
    by decide, by decide, C7_theorem.2 "RSI" 14 _ (by decide) (by decide)⟩

/-- C9 counterexample: the dispatch of `CalculateIndicatorValue` matches
`LRS`, not `LINREGSLOPE`, so the period-suffix identifier claimed by the
spec (`LinRegSlope20`, here with 21 closes — enough for period 20) hits
the `unsupported indicator` branch instead of evaluating. -/
theorem C9_counterexample :
    CalculateIndicatorValue "LinRegSlope" 20 (List.replicate 21 (1 : ℚ))
      = .error "unsupported indicator: LinRegSlope" := by
  decide

/-- C9 (amended): with a series of length ≥ period+1 (period ≥ 1), each
supported name evaluates to the last element of its indicator series:
`RSI`, `EMA`, `SMA`, `MACD` (the fixed 12,26,9 computation, at period 12
as the evaluator invokes it), `ROC`, and — for the linear-regression
slope — the identifier `LRS`, not `LinRegSlope`. -/
theorem C9_theorem (period : Nat) (closes : List ℚ)
    (hp : 1 ≤ period) (hlen : period + 1 ≤ closes.length) :
    CalculateIndicatorValue "RSI" period closes
        = .ok ((talibRsi closes period).getLastD 0)
    ∧ CalculateIndicatorValue "EMA" period closes
        = .ok ((talibEma closes period).getLastD 0)
    ∧ CalculateIndicatorValue "SMA" period closes
        = .ok ((talibSma closes period).getLastD 0)
    ∧ (12 + 1 ≤ closes.length →
        CalculateIndicatorValue "MACD" 12 closes
          = .ok ((talibMacdHist closes 12 26 9).getLastD 0))
    ∧ CalculateIndicatorValue "ROC" period closes
        = .ok ((talibRoc closes period).getLastD 0)
    ∧ CalculateIndicatorValue "LRS" period closes
        = .ok ((talibLinearRegSlope closes period).getLastD 0) := by
  have hnl : ¬ (closes.length < period + 1) := not_lt.mpr hlen
  refine ⟨?_, ?_, ?_, ?_, ?_, ?_⟩
  · simp only [CalculateIndicatorValue, if_neg hnl]
    rfl
  · simp only [CalculateIndicatorValue, if_neg hnl]
    rfl
  · simp only [CalculateIndicatorValue, if_neg hnl]
    rfl
  · intro hm
    have hnl2 : ¬ (closes.length < 12 + 1) := not_lt.mpr hm
    simp only [CalculateIndicatorValue, if_neg hnl2]
    rfl
  · simp only [CalculateIndicatorValue, if_neg hnl]
    rfl
  · simp only [CalculateIndicatorValue, if_neg hnl]
    rfl

/-- C9 witness: the amended theorem at period 2 over 13 closes. -/
theorem C9_theorem_witness :
    (1 : Nat) ≤ 2 ∧ 2 + 1 ≤ (List.replicate 13 (1 : ℚ)).length
    ∧ (CalculateIndicatorValue "RSI" 2 (List.replicate 13 (1 : ℚ))
          = .ok ((talibRsi (List.replicate 13 (1 : ℚ)) 2).getLastD 0)
      ∧ CalculateIndicatorValue "EMA" 2 (List.replicate 13 (1 : ℚ))
          = .ok ((talibEma (List.replicate 13 (1 : ℚ)) 2).getLastD 0)
      ∧ CalculateIndicatorValue "SMA" 2 (List.replicate 13 (1 : ℚ))
          = .ok ((talibSma (List.replicate 13 (1 : ℚ)) 2).getLastD 0)
      ∧ (12 + 1 ≤ (List.replicate 13 (1 : ℚ)).length →
          CalculateIndicatorValue "MACD" 12 (List.replicate 13 (1 : ℚ))
            = .ok ((talibMacdHist (List.replicate 13 (1 : ℚ)) 12 26 9).getLastD 0))
      ∧ CalculateIndicatorValue "ROC" 2 (List.replicate 13 (1 : ℚ))
          = .ok ((talibRoc (List.replicate 13 (1 : ℚ)) 2).getLastD 0)
      ∧ CalculateIndicatorValue "LRS" 2 (List.replicate 13 (1 : ℚ))
          = .ok ((talibLinearRegSlope (List.replicate 13 (1 : ℚ)) 2).getLastD 0)) :=
  ⟨by decide, by decide, C9_theorem 2 (List.replicate 13 (1 : ℚ)) (by decide) (by decide)⟩

/-! ## Claim C8 -/

/-- C8: a nil (or empty) candle array in a success envelope is a success
with an empty series at the gateway; the evaluator then errors on the
empty series (`no historical data available to evaluate condition`), and
the worker treats that error like any transient one — it stays running
(Monitoring) and performs no placement. -/
theorem C8_theorem :
    (∀ r : HistoryEnvelope, r.status = "success" → r.data = none →
      processHistoryResponse r = .ok [])
    ∧ (∀ r : HistoryEnvelope, r.status = "success" → r.data = some [] →
      processHistoryResponse r = .ok [])
    ∧ (∀ rest, evalPineHead (.ok []) rest
        = .error "no historical data available to evaluate condition")
    ∧ (∀ (cfg : WConfig) (pl : Except String String), cfg.running = true →
      wstep cfg
        (.tick ⟨false,
          .error "no historical data available to evaluate condition", pl⟩)
        = some (cfg, [])) := by
  refine ⟨?_, ?_, ?_, ?_⟩
  · intro r h1 h2
    simp [processHistoryResponse, h1, h2]
  · intro r h1 h2
    simp [processHistoryResponse, h1, h2]
  · intro rest
    rfl
  · intro cfg pl h
    simp [wstep, h]

/-- C8 witness: a concrete success envelope with a nil candle array,
pushed through the gateway, the evaluator head and a worker tick. -/
theorem C8_theorem_witness :
    ((⟨"success", none, ""⟩ : HistoryEnvelope).status = "success"
      ∧ (⟨"success", none, ""⟩ : HistoryEnvelope).data = none
      ∧ processHistoryResponse ⟨"success", none, ""⟩ = .ok [])
    ∧ evalPineHead (.ok []) (fun _ => .ok (true, []))
        = .error "no historical data available to evaluate condition"
    ∧ ((⟨true, false⟩ : WConfig).running = true
      ∧ wstep ⟨true, false⟩
          (.tick ⟨false,
            .error "no historical data available to evaluate condition", .ok "X"⟩)
          = some (⟨true, false⟩, [])) :=
  ⟨⟨rfl, rfl, C8_theorem.1 ⟨"success", none, ""⟩ rfl rfl⟩,
    C8_theorem.2.2.1 (fun _ => .ok (true, [])),
    rfl, C8_theorem.2.2.2 ⟨true, false⟩ (.ok "X") rfl⟩

/-! ## Claim C1 -/

/-- C1 counterexample: a tick whose evaluation returns the
`InsufficientData` configuration error (here the exact error string
`CalculateIndicatorValue` produces for RSI(14) over 3 closes) leaves the
worker running and emits no effect at all: the loop body for
`err != nil` is `log; continue`, so the monitor is not stopped and the
user receives no message, contradicting the claim. -/
theorem C1_counterexample :
    CalculateIndicatorValue "RSI" 14 (List.replicate 3 (1 : ℚ))
      = .error (insufficientDataMsg "RSI" 14 3)
    ∧ wstep ⟨true, false⟩
        (.tick ⟨false, .error (insufficientDataMsg "RSI" 14 3), .ok "X"⟩)
      = some (⟨true, false⟩, []) := by
  constructor
  · decide
  · rfl

/-- C1 (amended): every evaluation error returned by a tick — the four
fatal configuration errors included — is handled by `log; continue`:
the worker stays in its loop with the same state and emits no
user-visible effect on that tick. -/
theorem C1_theorem (cfg : WConfig) (msg : String) (pl : Except String String)
    (hrun : cfg.running = true) :
    wstep cfg (.tick ⟨false, .error msg, pl⟩) = some (cfg, []) := by
  simp [wstep, hrun]

/-- C1 witness: the amended theorem at a running worker and a syntax
error. -/
theorem C1_theorem_witness :
    (⟨true, false⟩ : WConfig).running = true
    ∧ wstep ⟨true, false⟩
        (.tick ⟨false, .error "invalid Pine Script condition syntax", .ok "B"⟩)
      = some (⟨true, false⟩, []) :=
  ⟨rfl, C1_theorem ⟨true, false⟩ "invalid Pine Script condition syntax" (.ok "B") rfl⟩

/-! ## Claim C4 -/

lemma sysStep_halted {cfg : WConfig} (h : cfg.running = false) {e : SysEvent}
    {pr : WConfig × List WEffect} (hs : sysStep cfg e = some pr) :
    pr.1.running = false ∧ pr.2 = [] := by
  cases e with
  | closeCancel =>
    simp only [sysStep] at hs
    by_cases hc : cfg.cancelClosed = true
    · rw [if_pos hc] at hs
      exact absurd hs (by simp)
    · rw [if_neg hc] at hs
      cases hs
      exact ⟨h, rfl⟩
  | w we =>
    simp [sysStep, wstep, h] at hs

lemma runTrace_halted (cfg : WConfig) (h : cfg.running = false)
    (tr : List SysEvent) (out : WConfig × List (SysEvent × List WEffect))
    (hrun : runTrace cfg tr = some out) :
    out.2.any entryHasPlace = false := by
  induction tr generalizing cfg out with
  | nil =>
    simp only [runTrace] at hrun
    cases hrun
    rfl
  | cons e es ih =>
    cases hs : sysStep cfg e with
    | none =>
      simp only [runTrace, hs] at hrun
      exact absurd hrun (by simp)
    | some pr =>
      obtain ⟨cfg2, effs⟩ := pr
      cases hr : runTrace cfg2 es with
      | none =>
        simp only [runTrace, hs, hr] at hrun
        exact absurd hrun (by simp)
      | some out2 =>
        obtain ⟨cfg3, log⟩ := out2
        simp only [runTrace, hs, hr] at hrun
        cases hrun
        have hstep := sysStep_halted h hs
        have heffs : effs = [] := hstep.2
        have hlog := ih cfg2 hstep.1 (cfg3, log) hr
        simp only [List.any_cons, hlog, Bool.or_false]
        simp [entryHasPlace, heffs]

lemma runTrace_place_after_cancel (cfg : WConfig) (tr : List SysEvent)
    (out : WConfig × List (SysEvent × List WEffect))
    (hrun : runTrace cfg tr = some out) :
    placeAfter isCancelFireEvent out.2 = false := by
  induction tr generalizing cfg out with
  | nil =>
    simp only [runTrace] at hrun
    cases hrun
    rfl
  | cons e es ih =>
    cases hs : sysStep cfg e with
    | none =>
      simp only [runTrace, hs] at hrun
      exact absurd hrun (by simp)
    | some pr =>
      obtain ⟨cfg2, effs⟩ := pr
      cases hr : runTrace cfg2 es with
      | none =>
        simp only [runTrace, hs, hr] at hrun
        exact absurd hrun (by simp)
      | some out2 =>
        obtain ⟨cfg3, log⟩ := out2
        simp only [runTrace, hs, hr] at hrun
        cases hrun
        by_cases hm : isCancelFireEvent e = true
        · have he : e = .w .cancelFire := by
            cases e with
            | closeCancel => exact absurd hm (by simp [isCancelFireEvent])
            | w we =>
              cases we with
              | cancelFire => rfl
              | expiryFire => exact absurd hm (by simp [isCancelFireEvent])
              | tick inp => exact absurd hm (by simp [isCancelFireEvent])
          subst he
          have hrun2 : cfg2.running = false := by
            simp only [sysStep, wstep] at hs
            by_cases h1 : cfg.running = false
            · rw [if_pos h1] at hs
              exact absurd hs (by simp)
            · rw [if_neg h1] at hs
              by_cases h2 : cfg.cancelClosed = true
              · simp only [h2, if_true] at hs
                cases hs
                rfl
              · rw [if_neg h2] at hs
                exact absurd hs (by simp)
          have := runTrace_halted cfg2 hrun2 es (cfg3, log) hr
          simp only [placeAfter, hm, if_true]
          exact this
        · simp only [placeAfter, hm, if_false]
          exact ih cfg2 (cfg3, log) hr

/-- C4 counterexample: closing the cancellation channel does not by
itself prevent one more placement: Go's `select` chooses uniformly among
*ready* cases, and a tick that is ready in the same cycle as the
already-closed cancel channel may be selected, reaching order placement
after the close.  The concrete two-step trace close-then-tick is valid
for the worker step relation and places an order after the close event. -/
theorem C4_counterexample :
    (runTrace ⟨true, false⟩
        [.closeCancel, .w (.tick ⟨false, .ok (true, []), .ok "OID-1"⟩)]).isSome = true
    ∧ placeAfter isCloseEvent
        ((runTrace ⟨true, false⟩
          [.closeCancel, .w (.tick ⟨false, .ok (true, []), .ok "OID-1"⟩)]).getD
          (⟨true, false⟩, [])).2 = true :=
  ⟨rfl, rfl⟩

/-- C4 (amended): once the cancellation channel is closed the cancel
branch is enabled at every subsequent select, and once the worker takes
the cancel branch it has returned — no later step of any valid trace
performs a `placeSmartOrder` call.  (The claim as stated is stronger and
fails: a tick ready in the same select cycle may be chosen first and
still reach placement, see the counterexample.) -/
theorem C4_theorem :
    (∀ cfg : WConfig, cfg.running = true → cfg.cancelClosed = true →
      (sysStep cfg (.w .cancelFire)).isSome = true)
    ∧ (∀ (cfg : WConfig) (tr : List SysEvent)
        (out : WConfig × List (SysEvent × List WEffect)),
        runTrace cfg tr = some out →
        placeAfter isCancelFireEvent out.2 = false) := by
  constructor
  · intro cfg h1 h2
    simp [sysStep, wstep, h1, h2]
  · intro cfg tr out hrun
    exact runTrace_place_after_cancel cfg tr out hrun

/-- C4 witness: the amended theorem at a closed-channel configuration and
at the concrete trace close-then-cancel. -/
theorem C4_theorem_witness :
    ((⟨true, true⟩ : WConfig).running = true
      ∧ (⟨true, true⟩ : WConfig).cancelClosed = true
      ∧ (sysStep ⟨true, true⟩ (.w .cancelFire)).isSome = true)
    ∧ (runTrace ⟨true, false⟩ [.closeCancel, .w .cancelFire]
        = some (⟨false, true⟩,
          [(.closeCancel, []), (.w .cancelFire, [.cancelledMsg])])
      ∧ placeAfter isCancelFireEvent
          [(.closeCancel, []), (.w .cancelFire, [.cancelledMsg])] = false) :=
  ⟨⟨rfl, rfl, C4_theorem.1 ⟨true, true⟩ rfl rfl⟩,
    rfl, C4_theorem.2 ⟨true, false⟩ [.closeCancel, .w .cancelFire]
      (⟨false, true⟩, [(.closeCancel, []), (.w .cancelFire, [.cancelledMsg])]) rfl⟩

/-! ## Claim C3 -/

lemma lookupA_delA {α : Type} (l : List (String × α)) (k : String) :
    lookupA (delA k l) k = none := by
  induction l with
  | nil => rfl
  | cons p rest ih =>
    obtain ⟨k1, v1⟩ := p
    by_cases hk : k1 = k
    · simpa [delA, List.filter_cons, hk] using ih
    · simpa [delA, List.filter_cons, lookupA, hk] using ih

lemma lookupA_mem {α : Type} {l : List (String × α)} {k : String} {v : α}
    (h : lookupA l k = some v) : (k, v) ∈ l := by
  induction l with
  | nil => exact absurd h (by simp [lookupA])
  | cons p rest ih =>
    obtain ⟨k1, v1⟩ := p
    by_cases hk : k1 = k
    · subst hk
      simp only [lookupA, if_pos rfl] at h
      cases h
      exact List.mem_cons_self _ _
    · simp only [lookupA, if_neg hk] at h
      exact List.mem_cons_of_mem _ (ih h)

lemma lookupA_setA {α : Type} (l : List (String × α)) (k : String) (v : α) :
    lookupA (setA k v l) k = some v := by
  simp [setA, lookupA]

lemma lookupA_setA_ne {α : Type} (l : List (String × α)) (k k2 : String) (v : α)
    (h : ¬ (k = k2)) : lookupA (setA k v l) k2 = lookupA (delA k l) k2 := by
  simp [setA, delA, lookupA, h]

/-- C3: registry removal is exactly-once and idempotent.  Under the
code's reachable-state invariants (a record in the map has an unfired
`CleanupOnce`, and a cancellation entry exists only alongside its
record), a first `removeAutoOrder id` leaves no `autoOrders` and no
`cancellation` entry for `id` and performs at most one channel close
(ghost `closeCount` grows by at most one); a second `removeAutoOrder id`
is a no-op on the whole state; a lookup after removal yields nothing.
Both the cancel path and the natural worker-exit path call this same
function under `orderMux`, so idempotence makes the outcome independent
of how their two calls interleave. -/
theorem C3_theorem (s : RegState) (id : String)
    (hwf : ∀ p ∈ s.autoOrders, p.2.cleanupDone = false)
    (hdom : lookupA s.autoOrders id = none → lookupA s.cancellation id = none) :
    lookupA (removeAutoOrder s id).autoOrders id = none
    ∧ lookupA (removeAutoOrder s id).cancellation id = none
    ∧ removeAutoOrder (removeAutoOrder s id) id = removeAutoOrder s id
    ∧ (removeAutoOrder s id).closeCount ≤ s.closeCount + 1 := by
  cases hlook : lookupA s.autoOrders id with
  | none =>
    have hs1 : removeAutoOrder s id = s := by
      simp [removeAutoOrder, hlook]
    rw [hs1]
    exact ⟨hlook, hdom hlook, hs1, by omega⟩
  | some order =>
    have hdone : order.cleanupDone = false := hwf (id, order) (lookupA_mem hlook)
    cases hc : lookupA s.cancellation id with
    | none =>
      have hs1 : removeAutoOrder s id
          = { s with autoOrders := delA id s.autoOrders } := by
        simp [removeAutoOrder, hlook, hdone, hc]
      rw [hs1]
      refine ⟨lookupA_delA _ _, hc, ?_, by show s.closeCount ≤ s.closeCount + 1; omega⟩
      simp [removeAutoOrder, lookupA_delA]
    | some ch =>
      by_cases hclosed : ch ∈ s.closedChans
      · have hs1 : removeAutoOrder s id
            = { s with autoOrders := delA id s.autoOrders
                       cancellation := delA id s.cancellation } := by
          simp [removeAutoOrder, hlook, hdone, hc, hclosed]
        rw [hs1]
        refine ⟨lookupA_delA _ _, lookupA_delA _ _, ?_,
          by show s.closeCount ≤ s.closeCount + 1; omega⟩
        simp [removeAutoOrder, lookupA_delA]
      · have hs1 : removeAutoOrder s id
            = { s with autoOrders := delA id s.autoOrders
                       cancellation := delA id s.cancellation
                       closedChans := ch :: s.closedChans
                       closeCount := s.closeCount + 1 } := by
          simp [removeAutoOrder, hlook, hdone, hc, hclosed]
        rw [hs1]
        refine ⟨lookupA_delA _ _, lookupA_delA _ _, ?_,
          by show s.closeCount + 1 ≤ s.closeCount + 1; omega⟩
        simp [removeAutoOrder, lookupA_delA]

/-- C3 witness: the theorem at the sample registry holding monitor
`SO-42`. -/
theorem C3_theorem_witness :
    (∀ p ∈ sampleReg.autoOrders, p.2.cleanupDone = false)
    ∧ (lookupA sampleReg.autoOrders "SO-42" = none →
        lookupA sampleReg.cancellation "SO-42" = none)
    ∧ (lookupA (removeAutoOrder sampleReg "SO-42").autoOrders "SO-42" = none
      ∧ lookupA (removeAutoOrder sampleReg "SO-42").cancellation "SO-42" = none
      ∧ removeAutoOrder (removeAutoOrder sampleReg "SO-42") "SO-42"
          = removeAutoOrder sampleReg "SO-42"
      ∧ (removeAutoOrder sampleReg "SO-42").closeCount
          ≤ sampleReg.closeCount + 1) :=
  ⟨by decide, by decide, C3_theorem sampleReg "SO-42" (by decide) (by decide)⟩

/-! ## Claim C10 -/

/-- C10: monitor ids derive solely from the epoch second modulo 100000
(format `SO-<n>`), so two `StartAutoOrderMonitoring` calls within the
same second return the same id, and the second registration silently
overwrites the first monitor's record and cancellation channel in the
session maps — the first channel (tag `s.nextChan`) is no longer
reachable through the registry. -/
theorem C10_theorem (s : RegState) (nowSec : Int) (p1 p2 : OrderParams)
    (e1 e2 : Int)
    (hfresh : ∀ q ∈ s.cancellation, q.2 < s.nextChan) :
    ∀ id1 s1 id2 s2,
    StartAutoOrderMonitoring s nowSec p1 e1 = (id1, s1) →
    StartAutoOrderMonitoring s1 nowSec p2 e2 = (id2, s2) →
    id1 = "SO-" ++ toString (Int.tmod nowSec 100000)
    ∧ id2 = id1
    ∧ lookupA s2.autoOrders id1 = some
        { id := id1, userId := p2.userId, symbol := p2.symbol
          exchange := p2.exchange, product := p2.product
          quantity := p2.quantity, action := p2.action
          interval := p2.interval, condition := p2.condition
          status := "running", createdAtSec := nowSec
          expiresAtSec := e2, cleanupDone := false }
    ∧ lookupA s2.cancellation id1 = some (s.nextChan + 1)
    ∧ (∀ k ch, lookupA s2.cancellation k = some ch → ch ≠ s.nextChan) := by
  intro id1 s1 id2 s2 h1 h2
  simp only [StartAutoOrderMonitoring] at h1 h2
  injection h1 with hid1 hs1
  injection h2 with hid2 hs2
  subst hid1
  subst hs1
  subst hs2
  refine ⟨rfl, hid2.symm, ?_, ?_, ?_⟩
  · rw [← hid2.symm]
    exact lookupA_setA _ _ _
  · rw [← hid2.symm]
    exact lookupA_setA _ _ _
  · intro k ch hk
    by_cases hkk : ("SO-" ++ toString (Int.tmod nowSec 100000)) = k
    · rw [← hkk] at hk
      rw [lookupA_setA] at hk
      cases hk
      simp
    · rw [lookupA_setA_ne _ _ _ _ hkk] at hk
      have hmem := lookupA_mem hk
      have hmem2 : (k, ch) ∈ setA ("SO-" ++ toString (Int.tmod nowSec 100000))
          s.nextChan s.cancellation := (List.mem_filter.mp hmem).1
      have hmem3 : (k, ch) ∈ s.cancellation := by
        simp only [setA] at hmem2
        rcases List.mem_cons.mp hmem2 with hcase | hcase
        · exact absurd (congrArg Prod.fst hcase).symm hkk
        · exact (List.mem_filter.mp hcase).1
      have := hfresh (k, ch) hmem3
      omega

/-- C10 witness: two registrations at epoch second 42 on an empty
registry (parameters differ, id collides, second record wins). -/
theorem C10_theorem_witness :
    (∀ q ∈ (⟨[], [], [], 0, 0⟩ : RegState).cancellation,
        q.2 < (⟨[], [], [], 0, 0⟩ : RegState).nextChan)
    ∧ StartAutoOrderMonitoring ⟨[], [], [], 0, 0⟩ 42 sampleParams 1000
        = ("SO-42", sampleReg)
    ∧ StartAutoOrderMonitoring sampleReg 42 sampleParams2 2000
        = ("SO-42", sampleReg2)
    ∧ ("SO-42" = "SO-" ++ toString (Int.tmod 42 100000)
      ∧ "SO-42" = "SO-42"
      ∧ lookupA sampleReg2.autoOrders "SO-42" = some
          { id := "SO-42", userId := sampleParams2.userId
            symbol := sampleParams2.symbol, exchange := sampleParams2.exchange
            product := sampleParams2.product, quantity := sampleParams2.quantity
            action := sampleParams2.action, interval := sampleParams2.interval
            condition := sampleParams2.condition, status := "running"
            createdAtSec := 42, expiresAtSec := 2000, cleanupDone := false }
      ∧ lookupA sampleReg2.cancellation "SO-42"
          = some ((⟨[], [], [], 0, 0⟩ : RegState).nextChan + 1)
      ∧ (∀ k ch, lookupA sampleReg2.cancellation k = some ch →
          ch ≠ (⟨[], [], [], 0, 0⟩ : RegState).nextChan)) :=
  ⟨by decide, by decide, by decide,
    C10_theorem ⟨[], [], [], 0, 0⟩ 42 sampleParams sampleParams2 1000 2000
      (by decide) "SO-42" sampleReg "SO-42" sampleReg2 (by decide) (by decide)⟩

/-! ## Claim C5 -/

/-- C5, the code evaluated at the failing input: a panic of the `SO-42`
worker while the monitor is not yet expired.  The message/e-mail part of
the claim holds and a fresh worker is spawned; but the deferred registry
cleanup ran *before* the recovery handler (LIFO defers), so the record
and channel are already gone, the channel was closed exactly once, and
the spawned worker finds no cancellation channel and stops immediately
(`noChannelStop`) instead of resuming monitoring. -/
theorem C5_bug :
    (panicRecovery sampleReg "SO-42" true).2
      = [.cleanupRun, .crashErrMsg, .crashEmail, .restartMsg, .spawnWorker]
    ∧ workerStartup (panicRecovery sampleReg "SO-42" true).1 "SO-42"
        = .noChannelStop
    ∧ lookupA (panicRecovery sampleReg "SO-42" true).1.autoOrders "SO-42" = none
    ∧ (panicRecovery sampleReg "SO-42" true).1.closeCount
        = sampleReg.closeCount + 1 :=
  ⟨by decide, by decide, by decide, by decide⟩

/-! ## Claim C6 -/

lemma countP_cons (q : PEffect → Bool) (e : PEffect) (effs : List PEffect) :
    countP q (e :: effs) = (if q e = true then 1 else 0) + countP q effs := by
  simp only [countP, List.filter_cons]
  by_cases h : q e = true
  · simp [h, Nat.add_comm]
  · simp [h]

lemma pollGo_cons_default (fin : Bool) (a : PollAttemptEnv)
    (rest : List PollAttemptEnv) (st : String)
    (hex : a.existsInRegistry = true) (hf : a.fetch = .ok st)
    (h1 : goToLower st ≠ "complete") (h2 : goToLower st ≠ "rejected")
    (h3 : goToLower st ≠ "cancelled") :
    pollGo fin (a :: rest)
      = ((pollGo fin rest).1, .fetchCall :: (pollGo fin rest).2) := by
  simp only [pollGo, hex, eq_self_iff_true, if_true, hf]

lemma pollGo_spec (fin : Bool) (l : List PollAttemptEnv) :
    countP isFetch (pollGo fin l).2 ≤ l.length
    ∧ ((pollGo fin l).1 = .complete →
        countP isUserMsg (pollGo fin l).2 = 0 ∧ countP isEmail (pollGo fin l).2 = 0)
    ∧ (∀ st, (pollGo fin l).1 = .failed st →
        countP isUserMsg (pollGo fin l).2 = 1 ∧ countP isEmail (pollGo fin l).2 = 1)
    ∧ ((pollGo fin l).1 = .exhausted →
        countP isFetch (pollGo fin l).2 = l.length
        ∧ countP isUserMsg (pollGo fin l).2 = (if fin = true then 1 else 0)
        ∧ countP isEmail (pollGo fin l).2 = (if fin = true then 1 else 0))
    ∧ ((pollGo fin l).1 = .vanished →
        countP isUserMsg (pollGo fin l).2 = 0 ∧ countP isEmail (pollGo fin l).2 = 0) := by
  induction l with
  | nil =>
    cases fin <;>
      simp [pollGo, countP, isFetch, isUserMsg, isEmail]
  | cons a rest ih =>
    obtain ⟨hle, hcomp, hfail, hexh, hvan⟩ := ih
    by_cases hex : a.existsInRegistry = true
    case neg =>
      have hexf : a.existsInRegistry = false := by
        revert hex
        cases a.existsInRegistry <;> simp
      simp [pollGo, hexf, countP, isUserMsg, isEmail]
    case pos =>
      cases hf : a.fetch with
      | error err =>
        cases hpr : pollGo fin rest with
        | mk o effs =>
          simp only [pollGo, hex, eq_self_iff_true, if_true, hf, hpr]
          rw [hpr] at hle hcomp hfail hexh hvan
          simp only at hle hcomp hfail hexh hvan
          refine ⟨?_, ?_, ?_, ?_, ?_⟩
          · rw [countP_cons]
            simp only [isFetch, List.length_cons, eq_self_iff_true, if_true, reduceCtorEq, if_false]
            omega
          · intro ho
            rw [countP_cons, countP_cons]
            have := hcomp ho
            simp only [isUserMsg, isEmail, eq_self_iff_true, if_true, reduceCtorEq, if_false]
            omega
          · intro st ho
            rw [countP_cons, countP_cons]
            have := hfail st ho
            simp only [isUserMsg, isEmail, eq_self_iff_true, if_true, reduceCtorEq, if_false]
            omega
          · intro ho
            rw [countP_cons, countP_cons, countP_cons]
            have := hexh ho
            simp only [isFetch, isUserMsg, isEmail, List.length_cons, eq_self_iff_true, if_true, reduceCtorEq, if_false]
            omega
          · intro ho
            rw [countP_cons, countP_cons]
            have := hvan ho
            simp only [isUserMsg, isEmail, eq_self_iff_true, if_true, reduceCtorEq, if_false]
            omega
      | ok st =>
        by_cases h1 : goToLower st = "complete"
        · simp [pollGo, hex, hf, h1, countP, isFetch, isUserMsg, isEmail]
        · by_cases h2 : goToLower st = "rejected"
          · simp [pollGo, hex, hf, h1, h2, countP, isFetch, isUserMsg, isEmail]
          · by_cases h3 : goToLower st = "cancelled"
            · simp [pollGo, hex, hf, h1, h2, h3, countP, isFetch, isUserMsg, isEmail]
            · have hred := pollGo_cons_default fin a rest st hex hf h1 h2 h3
              cases hpr : pollGo fin rest with
              | mk o effs =>
                rw [hpr] at hred
                simp only at hred
                rw [hpr] at hle hcomp hfail hexh hvan
                simp only at hle hcomp hfail hexh hvan
                rw [hred]
                refine ⟨?_, ?_, ?_, ?_, ?_⟩
                · rw [countP_cons]
                  simp only [isFetch, List.length_cons, eq_self_iff_true, if_true, reduceCtorEq, if_false]
                  omega
                · intro ho
                  rw [countP_cons, countP_cons]
                  have := hcomp ho
                  simp only [isUserMsg, isEmail, eq_self_iff_true, if_true, reduceCtorEq, if_false]
                  omega
                · intro st2 ho
                  rw [countP_cons, countP_cons]
                  have := hfail st2 ho
                  simp only [isUserMsg, isEmail, eq_self_iff_true, if_true, reduceCtorEq, if_false]
                  omega
                · intro ho
                  rw [countP_cons, countP_cons, countP_cons]
                  have := hexh ho
                  simp only [isFetch, isUserMsg, isEmail, List.length_cons, eq_self_iff_true, if_true, reduceCtorEq, if_false]
                  omega
                · intro ho
                  rw [countP_cons, countP_cons]
                  have := hvan ho
                  simp only [isUserMsg, isEmail, eq_self_iff_true, if_true, reduceCtorEq, if_false]
                  omega

/-- C6: the status poller performs at most 5 `FetchOrderStatus` attempts
(`maxRetries = 5`, spaced `retryInterval = 15` seconds); on lower-cased
status `complete` it returns with no message and no e-mail; on
`rejected`/`cancelled` it emits exactly one user-facing failure message
and exactly one e-mail and stops; exhausting all 5 attempts without a
terminal status emits the `unresolved, verify manually` message (and
e-mail) iff the parent monitor still exists at the final check; and a
registry miss at the start of an attempt stops polling silently. -/
theorem C6_theorem :
    pollMaxRetries = 5 ∧ pollRetryIntervalSec = 15
    ∧ (∀ attempts fin, countP isFetch (pollOrderStatus attempts fin).2 ≤ 5)
    ∧ (∀ attempts fin, (pollOrderStatus attempts fin).1 = .complete →
        countP isUserMsg (pollOrderStatus attempts fin).2 = 0
        ∧ countP isEmail (pollOrderStatus attempts fin).2 = 0)
    ∧ (∀ attempts fin st, (pollOrderStatus attempts fin).1 = .failed st →
        countP isUserMsg (pollOrderStatus attempts fin).2 = 1
        ∧ countP isEmail (pollOrderStatus attempts fin).2 = 1)
    ∧ (∀ attempts : List PollAttemptEnv, 5 ≤ attempts.length →
        (pollOrderStatus attempts true).1 = .exhausted →
        countP isFetch (pollOrderStatus attempts true).2 = 5
        ∧ countP isUserMsg (pollOrderStatus attempts true).2 = 1
        ∧ countP isEmail (pollOrderStatus attempts true).2 = 1)
    ∧ (∀ attempts : List PollAttemptEnv,
        (pollOrderStatus attempts false).1 = .exhausted →
        countP isUserMsg (pollOrderStatus attempts false).2 = 0
        ∧ countP isEmail (pollOrderStatus attempts false).2 = 0)
    ∧ (∀ attempts fin, (pollOrderStatus attempts fin).1 = .vanished →
        countP isUserMsg (pollOrderStatus attempts fin).2 = 0
        ∧ countP isEmail (pollOrderStatus attempts fin).2 = 0) := by
  refine ⟨rfl, rfl, ?_, ?_, ?_, ?_, ?_, ?_⟩
  · intro attempts fin
    have h := (pollGo_spec fin (attempts.take pollMaxRetries)).1
    calc countP isFetch (pollOrderStatus attempts fin).2
        ≤ (attempts.take pollMaxRetries).length := h
      _ ≤ 5 := by simp [pollMaxRetries]
  · intro attempts fin
    exact (pollGo_spec fin (attempts.take pollMaxRetries)).2.1
  · intro attempts fin
    exact (pollGo_spec fin (attempts.take pollMaxRetries)).2.2.1
  · intro attempts hlen ho
    have h := (pollGo_spec true (attempts.take pollMaxRetries)).2.2.2.1 ho
    have hl5 : (attempts.take pollMaxRetries).length = 5 := by
      simp [pollMaxRetries]
      omega
    rw [hl5] at h
    simpa using h
  · intro attempts ho
    have h := (pollGo_spec false (attempts.take pollMaxRetries)).2.2.2.1 ho
    simpa using ⟨h.2.1, h.2.2⟩
  · intro attempts fin
    exact (pollGo_spec fin (attempts.take pollMaxRetries)).2.2.2.2

/-- C6 witness: the theorem at concrete attempt environments — a
non-terminal then a `COMPLETE` status; a `REJECTED` status; five fetch
errors with and without the parent still registered; and a
registry miss. -/
theorem C6_theorem_witness :
    (pollOrderStatus [⟨true, .ok "open"⟩, ⟨true, .ok "COMPLETE"⟩] true).1 = .complete
    ∧ (countP isUserMsg
        (pollOrderStatus [⟨true, .ok "open"⟩, ⟨true, .ok "COMPLETE"⟩] true).2 = 0
      ∧ countP isEmail
        (pollOrderStatus [⟨true, .ok "open"⟩, ⟨true, .ok "COMPLETE"⟩] true).2 = 0)
    ∧ (pollOrderStatus [⟨true, .ok "REJECTED"⟩] true).1 = .failed "REJECTED"
    ∧ (countP isUserMsg (pollOrderStatus [⟨true, .ok "REJECTED"⟩] true).2 = 1
      ∧ countP isEmail (pollOrderStatus [⟨true, .ok "REJECTED"⟩] true).2 = 1)
    ∧ 5 ≤ (List.replicate 5 (⟨true, .error "boom"⟩ : PollAttemptEnv)).length
    ∧ (pollOrderStatus (List.replicate 5 ⟨true, .error "boom"⟩) true).1 = .exhausted
    ∧ (countP isFetch
        (pollOrderStatus (List.replicate 5 ⟨true, .error "boom"⟩) true).2 = 5
      ∧ countP isUserMsg
        (pollOrderStatus (List.replicate 5 ⟨true, .error "boom"⟩) true).2 = 1
      ∧ countP isEmail
        (pollOrderStatus (List.replicate 5 ⟨true, .error "boom"⟩) true).2 = 1)
    ∧ (pollOrderStatus (List.replicate 5 ⟨true, .error "boom"⟩) false).1 = .exhausted
    ∧ (countP isUserMsg
        (pollOrderStatus (List.replicate 5 ⟨true, .error "boom"⟩) false).2 = 0
      ∧ countP isEmail
        (pollOrderStatus (List.replicate 5 ⟨true, .error "boom"⟩) false).2 = 0)
    ∧ (pollOrderStatus [⟨false, .ok "open"⟩] true).1 = .vanished
    ∧ (countP isUserMsg (pollOrderStatus [⟨false, .ok "open"⟩] true).2 = 0
      ∧ countP isEmail (pollOrderStatus [⟨false, .ok "open"⟩] true).2 = 0) :=
  ⟨by decide,
    C6_theorem.2.2.2.1 [⟨true, .ok "open"⟩, ⟨true, .ok "COMPLETE"⟩] true (by decide),
    by decide,
    C6_theorem.2.2.2.2.1 [⟨true, .ok "REJECTED"⟩] true "REJECTED" (by decide),
    by decide, by decide,
    C6_theorem.2.2.2.2.2.1 (List.replicate 5 ⟨true, .error "boom"⟩)
      (by decide) (by decide),
    by decide,
    C6_theorem.2.2.2.2.2.2.1 (List.replicate 5 ⟨true, .error "boom"⟩) (by decide),
    by decide,
    C6_theorem.2.2.2.2.2.2.2 [⟨false, .ok "open"⟩] true (by decide)⟩

end TradingApp
